import Mathlib

/-!
Verification development for the generalized-glossing-guidelines repository.

Shallow embedding of the two source files:
  * `bin/ggg2bilou.py` — the Span Numbering Engine (`parse_ur_morph`,
    `parse_ur`), the gloss parser (`parse_gloss`) and the Gloss-to-Span
    Binder (`merged_form_gloss`).
  * `bin/validate_ggg.py` — the parsy grammars for UR/SR/gloss lines, the
    schema check (`validate_fields`), the process-count check
    (`validate_procs`), segment validation (`validate_segs`) and the
    top-level `validate` driver.

Python exceptions are modelled with `Option`/explicit outcome types;
Python `dict` assignment is modelled by prepending to an association list
(so the most recent binding wins on lookup); parsy combinators are
modelled as functions `List Char → Option (α × List Char)` with parsy's
PEG-style ordered choice and greedy repetition.
-/

/-- `Character` from ggg2bilou.py: a glossed character. `span` is an `Int`
because `parse_ur` uses the sentinel span `-1` for word boundaries. -/
structure Character where
  char : Char
  tag : String
  op : String
  span : Int
  gloss : String
deriving DecidableEq, Repr

/-- The mutable local state of `parse_ur_morph`: the `morphs = sequence()`
generator (one `next` already consumed, so `counter` starts at 1), the
accumulated `chars` (stored in reverse, most recent first, so that the
Python mutations of `chars[-1]` and reads of `chars[-2]` are head
operations), and the `matrix`, `span`, `tag`, `op`, `morph_type`
variables. -/
structure MorphState where
  counter : Nat
  rev : List Character
  matrix : Int
  span : Int
  tag : String
  op : String
  morph_type : String
deriving DecidableEq, Repr

/-- One iteration of the `for i, c in enumerate(morph)` loop of
`parse_ur_morph`.  `none` models an uncaught IndexError (`chars[-1]` on an
empty list in the `"}"` branch). -/
def stepURMorph (len : Nat) (st : MorphState) (ic : Nat × Char) : Option MorphState :=
  let i := ic.1
  let c := ic.2
  if c = ' ' then
    some { st with matrix := (st.counter : Int), span := (st.counter : Int),
                   counter := st.counter + 1, tag := "B", op := "S" }
  else if c = '-' then
    if i = 0 then some { st with morph_type := "suffix" }
    else if i = len - 1 then some { st with morph_type := "prefix" }
    else some st
  else if c = '{' then
    some { st with op := "D" }
  else if c = '>' then
    some { st with span := (st.counter : Int), counter := st.counter + 1,
                   tag := "B", op := "A" }
  else if c = '}' then
    match st.rev with
    | [] => none
    | last :: rest =>
      if last.op = "A" then
        let u : Bool := match rest with
          | prev :: _ => prev.span != st.span
          | [] => false
        let last' := { last with tag := if u then "U" else "L" }
        some { st with rev := last' :: rest, span := st.matrix, op := "S" }
      else
        some { st with span := st.matrix, op := "S" }
  else
    some { st with rev := ⟨c, st.tag, st.op, st.span, ""⟩ :: st.rev,
                   tag := if st.tag = "B" then "I" else st.tag }

/-- Run the character loop of `parse_ur_morph`. -/
def runURMorph (len : Nat) : MorphState → List (Nat × Char) → Option MorphState
  | st, [] => some st
  | st, ic :: rest =>
    match stepURMorph len st ic with
    | none => none
    | some st' => runURMorph len st' rest

/-- The character-list core of `parse_ur_morph`.  Returns the morph type
and the emitted characters; `none` models the uncaught IndexError raised
by `chars[-1]` when no character was emitted. -/
def parseURMorphL (cs : List Char) : Option (String × List Character) :=
  match runURMorph cs.length ⟨1, [], 0, 0, "B", "S", "root"⟩ cs.enum with
  | none => none
  | some st =>
    match st.rev with
    | [] => none
    | last :: rest =>
      some (st.morph_type, (({ last with tag := "L" }) :: rest).reverse)

/-- `parse_ur_morph` from ggg2bilou.py. -/
def parseURMorph (morph : String) : Option (String × List Character) :=
  parseURMorphL morph.toList

/-- Python `str.split(" ")`: split at every single space, keeping empty
pieces; on the empty string it yields one empty piece. -/
def splitOnSp : List Char → List (List Char)
  | [] => [[]]
  | c :: rest =>
    if c = ' ' then [] :: splitOnSp rest
    else
      match splitOnSp rest with
      | h :: t => (c :: h) :: t
      | [] => [[c]]

/-- The synthetic word-boundary character inserted by `parse_ur`. -/
def boundaryChar : Character := ⟨' ', "O", "S", -1, ""⟩

/-- The morph-type transitions at which `parse_ur` inserts a word
boundary: (root,root), (root,prefix), (suffix,root), (suffix,prefix). -/
def isBoundaryPair (a b : String) : Bool :=
  (a = "root" || a = "suffix") && (b = "root" || b = "prefix")

/-- Shift a character's span by the morph's `start_span` matrix tick. -/
def shiftChar (i : Nat) (c : Character) : Character :=
  { c with span := c.span + (i : Int) }

/-- The morph-assembly loop of `parse_ur`: `i` is the value `start_span`
takes for the next morph (the line-level `matrix` generator ticks once
per morph), `lastTyp` is the `last_typ` variable (initially "prefix"). -/
def urAssemble (i : Nat) (lastTyp : String) : List (String × List Character) → List Character
  | [] => []
  | (typ, chars) :: rest =>
    (if isBoundaryPair lastTyp typ then [boundaryChar] else []) ++
      chars.map (shiftChar i) ++ urAssemble (i + 1) typ rest

/-- A Python list comprehension over a fallible function: apply `f` left
to right, propagating the first exception. -/
def mapOpt {α β : Type} (f : α → Option β) : List α → Option (List β)
  | [] => some []
  | a :: t =>
    match f a with
    | none => none
    | some b =>
      match mapOpt f t with
      | none => none
      | some bs => some (b :: bs)

/-- The per-morph results `[parse_ur_morph(m) for m in ur.split(" ")]`
computed by `parse_ur` (note: Python's `"".split(" ")` is `[""]`). -/
def urMorphOutputs (ur : String) : Option (List (String × List Character)) :=
  mapOpt parseURMorphL (splitOnSp ur.toList)

/-- `parse_ur` from ggg2bilou.py. -/
def parseUR (ur : String) : Option (List Character) :=
  (urMorphOutputs ur).map (urAssemble 0 "prefix")

/-- The morph types of a UR line, as produced by `parse_ur_morph` on each
space-separated piece. -/
def urMorphTypes (ur : String) : Option (List String) :=
  (urMorphOutputs ur).map (List.map Prod.fst)

/-- Whether a list of consecutive morph types contains a word-boundary
transition. -/
def hasBoundary : List String → Bool
  | t1 :: t2 :: rest => isBoundaryPair t1 t2 || hasBoundary (t2 :: rest)
  | _ => false

/-!
## Parser combinators

A minimal model of the parsy combinators used by the grammars: a parser
is a function from the remaining input to `none` (parse failure, with
backtracking: alternation retries the other branch from the same
position) or the parsed value and the rest of the input.  Repetition is
greedy and stops at the first failure, like parsy's `times(0, inf)`; the
fuel argument is bounded by the input length plus one, which is never
exhausted because every repeated grammar in the source consumes at least
one character per iteration.
-/

def PF (α : Type) := List Char → Option (α × List Char)

def pmap {α β : Type} (f : α → β) (p : PF α) : PF β := fun l =>
  match p l with
  | none => none
  | some (a, r) => some (f a, r)

def ppure {α : Type} (a : α) : PF α := fun l => some (a, l)

def pseq2 {α β γ : Type} (p : PF α) (q : PF β) (f : α → β → γ) : PF γ := fun l =>
  match p l with
  | none => none
  | some (a, r) =>
    match q r with
    | none => none
    | some (b, r') => some (f a b, r')

def por {α : Type} (p q : PF α) : PF α := fun l =>
  match p l with
  | some x => some x
  | none => q l

def pleft {α β : Type} (p : PF α) (q : PF β) : PF α := pseq2 p q (fun a _ => a)

def pright {α β : Type} (p : PF α) (q : PF β) : PF β := pseq2 p q (fun _ b => b)

/-- parsy `string(c)` for the single-character literals used in the
grammars. -/
def pchar (c : Char) : PF String := fun l =>
  match l with
  | [] => none
  | c' :: r => if c' = c then some (String.mk [c], r) else none

/-- parsy `regex("[...]‌*")` — a possibly empty run of characters
satisfying `p`. -/
def ptake0 (p : Char → Bool) : PF String := fun l =>
  some (String.mk (l.takeWhile p), l.dropWhile p)

/-- parsy `regex("[...]‌+")` — a nonempty run of characters satisfying
`p`. -/
def ptake1 (p : Char → Bool) : PF String := fun l =>
  match l.takeWhile p with
  | [] => none
  | _ :: _ => some (String.mk (l.takeWhile p), l.dropWhile p)

/-- parsy `+` on string parsers: concatenation of the results. -/
def pcat (p q : PF String) : PF String := pseq2 p q (fun a b => a ++ b)

def pmanyFuel {α : Type} : Nat → PF α → PF (List α)
  | 0, _ => fun l => some ([], l)
  | fuel + 1, p => fun l =>
    match p l with
    | none => some ([], l)
    | some (a, r) =>
      match pmanyFuel fuel p r with
      | none => some ([a], r)
      | some (as, r') => some (a :: as, r')

/-- parsy `.many()`. -/
def pmany {α : Type} (p : PF α) : PF (List α) := fun l =>
  pmanyFuel (l.length + 1) p l

/-- parsy `.at_least(1)`. -/
def pmany1 {α : Type} (p : PF α) : PF (List α) :=
  pseq2 p (pmany p) (fun a as => a :: as)

/-- parsy `.sep_by(sep)` (min 0): one-or-more separated items, or the
empty list consuming nothing. -/
def psepBy {α β : Type} (p : PF α) (sep : PF β) : PF (List α) :=
  por (pseq2 p (pmany (pright sep p)) (fun a as => a :: as)) (ppure [])

/-- parsy `.sep_by(sep, min=1)`. -/
def psepBy1 {α β : Type} (p : PF α) (sep : PF β) : PF (List α) :=
  pseq2 p (pmany (pright sep p)) (fun a as => a :: as)

/-- parsy `.parse(...)`: run the parser and require the whole input to be
consumed; `none` models a raised ParseError. -/
def parseFull {α : Type} (p : PF α) (s : String) : Option α :=
  match p s.toList with
  | some (a, []) => some a
  | _ => none

/-!
## `parse_gloss` from ggg2bilou.py

`feature = regex("[^ {};-]+")`; `spans = ";" >> int.sep_by(",")` with
multi-digit indices; an unqualified process gets the empty index list via
`success([])`; morphs are `seq(feature, process.many())`; the prefix and
suffix wrappers drop the `-` marker and keep the bare morph (no morph
type tag is attached); lines are separated by single spaces.
-/

/-- Characters allowed in a gloss feature: anything but space, braces,
semicolon and hyphen. -/
def glFeatOK (c : Char) : Bool :=
  !(c = ' ' || c = '{' || c = '}' || c = ';' || c = '-')

/-- `regex(r"\d+").map(int)`. -/
def pnat : PF Nat := fun l =>
  match l.takeWhile Char.isDigit with
  | [] => none
  | ds => some (ds.foldl (fun n c => n * 10 + (c.toNat - 48)) 0, l.dropWhile Char.isDigit)

/-- A parsed gloss morph of ggg2bilou.py: `(feature, [(proc_feature,
indices)])`. -/
abbrev GlossMorphB := String × List (String × List Nat)

def glFeature : PF String := ptake1 glFeatOK

def glSpans : PF (List Nat) := pright (pchar ';') (psepBy pnat (pchar ','))

def glProcInner : PF (String × List Nat) :=
  por (pseq2 glFeature glSpans (fun f is => (f, is)))
      (pseq2 glFeature (ppure ([] : List Nat)) (fun f is => (f, is)))

def glProcess : PF (String × List Nat) :=
  pleft (pright (pchar '{') glProcInner) (pchar '}')

def glMorphB : PF GlossMorphB :=
  pseq2 glFeature (pmany glProcess) (fun f ps => (f, ps))

def glWrapped : PF GlossMorphB :=
  por (pright (pchar '-') glMorphB) (por (pleft glMorphB (pchar '-')) glMorphB)

/-- `parse_gloss` from ggg2bilou.py. -/
def parseGloss (gloss : String) : Option (List GlossMorphB) :=
  parseFull (psepBy glWrapped (pchar ' ')) gloss

/-!
## `merged_form_gloss` from ggg2bilou.py

The span-to-gloss dictionary is an association list with the most recent
assignment first; `dictFind` is Python `d[k]` returning `none` for a
KeyError.
-/

def dictFind (k : Int) : List (Int × String) → Option String
  | [] => none
  | (k', v) :: rest => if k = k' then some v else dictFind k rest

/-- The body of the `for pr in prs` loop of `merged_form_gloss`: state is
`(offset, span_glosses)`. -/
def bindProc (matrix : Nat) (st : Int × List (Int × String)) (pr : String × List Nat) :
    Int × List (Int × String) :=
  match pr with
  | (ft, []) => (st.1 + 1, ((matrix : Int) + st.1, ft) :: st.2)
  | (ft, spans) =>
    let m := spans.foldl (fun acc (sp : Nat) => ((matrix : Int) + (sp : Int), ft) :: acc) st.2
    let maxSp := spans.foldl (fun mx (sp : Nat) => max (sp : Int) mx) st.1
    (max (maxSp + 1) (st.1 + 1), m)

/-- One iteration of the `for matrix, (ft, prs) in enumerate(gl)` loop:
bind the morph's base feature at its matrix index, then fold its
processes. -/
def bindMorph (st : Int × List (Int × String)) (im : Nat × GlossMorphB) :
    Int × List (Int × String) :=
  let matrix := im.1
  let ft := im.2.1
  let prs := im.2.2
  prs.foldl (bindProc matrix) (st.1, ((matrix : Int), ft) :: st.2)

/-- The complete `span_glosses` dictionary built by `merged_form_gloss`
from a parsed gloss line (`offset` initialised to 1, dictionary empty). -/
def spanGlosses (gl : List GlossMorphB) : List (Int × String) :=
  (gl.enum.foldl bindMorph (1, [])).2

/-- The final loop of `merged_form_gloss`: stamp every UR character with
`span_glosses[character.span]`; `none` models the uncaught KeyError on a
span with no binding. -/
def stampChars (sg : List (Int × String)) : List Character → Option (List Character)
  | [] => some []
  | c :: rest =>
    match dictFind c.span sg with
    | none => none
    | some g =>
      match stampChars sg rest with
      | none => none
      | some l => some ({ c with gloss := g } :: l)

/-- `merged_form_gloss` from ggg2bilou.py: `none` models any uncaught
exception (UR IndexError, gloss ParseError, or the KeyError raised when a
character's span has no gloss binding). -/
def mergedFormGloss (form gloss : String) : Option (List Character) :=
  match parseUR form with
  | none => none
  | some ur =>
    match parseGloss gloss with
    | none => none
    | some gl => stampChars (spanGlosses gl) ur

/-!
## Grammars from validate_ggg.py

Form tokens are the tagged pairs `("seg", text)` / `("proc", text)` the
source builds with `.map`; morphs are `(morph_type, tokens)`; gloss
morphs are `(morph_type, (feature, [(proc_feature, indices)]))` where an
unqualified process carries the sentinel index list `[-1]` and a
qualified one carries its single-digit indices.  Alternatives are tried
in the source's order: suffix, enclitic, prefix, proclitic, root.
-/

/-- `regex("[^{}>= -]+")` — a UR/SR segment. -/
def formSegOK (c : Char) : Bool :=
  !(c = '{' || c = '}' || c = '>' || c = '=' || c = ' ' || c = '-')

def formSeg : PF (String × String) := pmap (fun x => ("seg", x)) (ptake1 formSegOK)

/-- `regex("[^}>]*")` — the source/target text of a UR process. -/
def urInnerOK (c : Char) : Bool := !(c = '}' || c = '>')

/-- `ur_proc`: `"{" source ">" target "}"` with the `>` mandatory. -/
def urProcP : PF (String × String) :=
  pmap (fun x => ("proc", x))
    (pcat (pcat (pcat (pcat (pchar '{') (ptake0 urInnerOK)) (pchar '>'))
      (ptake0 urInnerOK)) (pchar '}'))

/-- `sr_proc`: `"{" value "}"` with nonempty value excluding `}`. -/
def srProcP : PF (String × String) :=
  pmap (fun x => ("proc", x))
    (pcat (pcat (pchar '{') (ptake1 (fun c => !(c = '}')))) (pchar '}'))

def urCore : PF (List (String × String)) := pmany1 (por urProcP formSeg)

def srCore : PF (List (String × String)) := pmany1 (por srProcP formSeg)

abbrev FormMorph := String × List (String × String)

def urSfx : PF FormMorph := pseq2 (pchar '-') urCore (fun _ x => ("suffix", x))
def urEnc : PF FormMorph := pseq2 (pchar '=') urCore (fun _ x => ("enclitic", x))
def urPfx : PF FormMorph := pseq2 urCore (pchar '-') (fun x _ => ("prefix", x))
def urPcl : PF FormMorph := pseq2 urCore (pchar '=') (fun x _ => ("proclitic", x))
def urRoot : PF FormMorph := pmap (fun x => ("root", x)) urCore

/-- `ur_morph = ur_suffix | ur_enclitic | ur_prefix | ur_proclitic | ur_root`. -/
def urMorphG : PF FormMorph := por urSfx (por urEnc (por urPfx (por urPcl urRoot)))

def srSfx : PF FormMorph := pseq2 (pchar '-') srCore (fun _ x => ("suffix", x))
def srEnc : PF FormMorph := pseq2 (pchar '=') srCore (fun _ x => ("enclitic", x))
def srPfx : PF FormMorph := pseq2 srCore (pchar '-') (fun x _ => ("prefix", x))
def srPcl : PF FormMorph := pseq2 srCore (pchar '=') (fun x _ => ("proclitic", x))
def srRoot : PF FormMorph := pmap (fun x => ("root", x)) srCore

def srMorphG : PF FormMorph := por srSfx (por srEnc (por srPfx (por srPcl srRoot)))

/-- `ur_form = ur_morph.sep_by(string(" "))`. -/
def urFormG : PF (List FormMorph) := psepBy urMorphG (pchar ' ')

/-- `sr_form = sr_morph.sep_by(string(" "))`. -/
def srFormG : PF (List FormMorph) := psepBy srMorphG (pchar ' ')

/-- `gloss_seg = regex("[^ {}=-]+")`. -/
def glossSegOK (c : Char) : Bool :=
  !(c = ' ' || c = '{' || c = '}' || c = '=' || c = '-')

/-- `regex("[0-9A-Z.]+")` — a gloss process feature. -/
def glossFeatOK (c : Char) : Bool :=
  c.isDigit || ('A' ≤ c && c ≤ 'Z') || c = '.'

/-- `regex(r"\d").map(int)` — a single decimal digit index. -/
def pdigit : PF Int := fun l =>
  match l with
  | [] => none
  | c :: r => if c.isDigit then some (((c.toNat - 48 : Nat) : Int), r) else none

/-- A parsed gloss morph payload of validate_ggg.py. -/
abbrev GlossMorphV := String × List (String × List Int)

def glossQual : PF (String × List Int) :=
  pseq2 (pleft (pright (pchar '{') (ptake1 glossFeatOK)) (pchar ';'))
    (pleft (psepBy1 pdigit (pchar ',')) (pchar '}'))
    (fun f is => (f, is))

def glossUnqual : PF (String × List Int) :=
  pmap (fun f => (f, [(-1 : Int)]))
    (pleft (pright (pchar '{') (ptake1 glossFeatOK)) (pchar '}'))

def glossProcP : PF (String × List Int) := por glossQual glossUnqual

def glossCoreG : PF GlossMorphV :=
  pseq2 (ptake1 glossSegOK) (pmany glossProcP) (fun f ps => (f, ps))

def glossSfx : PF (String × GlossMorphV) :=
  pseq2 (pchar '-') glossCoreG (fun _ x => ("suffix", x))
def glossEnc : PF (String × GlossMorphV) :=
  pseq2 (pchar '=') glossCoreG (fun _ x => ("enclitic", x))
def glossPfx : PF (String × GlossMorphV) :=
  pseq2 glossCoreG (pchar '-') (fun x _ => ("prefix", x))
def glossPcl : PF (String × GlossMorphV) :=
  pseq2 glossCoreG (pchar '=') (fun x _ => ("proclitic", x))
def glossRoot : PF (String × GlossMorphV) :=
  pmap (fun x => ("root", x)) glossCoreG

/-- `gloss_morph`: suffix | enclitic | prefix | proclitic | root. -/
def glossMorphG : PF (String × GlossMorphV) :=
  por glossSfx (por glossEnc (por glossPfx (por glossPcl glossRoot)))

/-- `gloss = gloss_morph.sep_by(string(" "))`. -/
def glossFormG : PF (List (String × GlossMorphV)) := psepBy glossMorphG (pchar ' ')

/-!
## Validators from validate_ggg.py
-/

/-- `num_form_procs` inside `validate_procs`: the number of
`("proc", _)` tokens of a parsed UR/SR morph. -/
def numFormProcs (form : List (String × String)) : Nat :=
  (form.filter (fun tk => tk.1 = "proc")).length

/-- The gloss process count of `validate_procs`: the summed lengths of
the index lists of the morph's processes. -/
def numGlossProcs (g : GlossMorphV) : Nat :=
  g.2.foldl (fun n pr => n + pr.2.length) 0

/-- `validate_procs`: `true` means the AlignmentError is raised (the
`assert a == b == c` fails). -/
def validateProcs (u s : List (String × String)) (g : GlossMorphV) : Bool :=
  !(numFormProcs u == numFormProcs s && numFormProcs s == numGlossProcs g)

/-- A Python value as loaded from YAML, restricted to the shapes the
schema check inspects: strings, ints, floats, lists and dicts (a dict is
an insertion-ordered association list, as `dict.items()` iterates it). -/
inductive PyVal where
  | str (s : String)
  | int (n : Int)
  | float
  | list (l : List PyVal)
  | dict (d : List (String × PyVal))

/-- A schema node of validate_ggg.py: either a Python type object or a
nested schema dict. -/
inductive PySchema where
  | tyStr
  | tyInt
  | tyFloat
  | tyList
  | dict (d : List (String × PySchema))

/-- The hard-coded document schema of validate_ggg.py. -/
def gggSchema : PySchema :=
  .dict [("obj_lang", .tyStr), ("meta_lang", .tyList),
         ("segs", .dict [("start", .tyFloat), ("end", .tyFloat),
                         ("speaker", .tyInt), ("ur", .tyStr), ("sr", .tyStr),
                         ("gl", .tyStr), ("tr", .tyStr)])]

/-- Python `isinstance(value, t)` for the schema's leaf types (`value`
known not to be a dict).  `isinstance(True, int)` quirks are irrelevant:
no boolean ever appears.  An `int` is not a `float` in Python. -/
def isinst (v : PyVal) (t : PySchema) : Bool :=
  match v, t with
  | .str _, .tyStr => true
  | .int _, .tyInt => true
  | .float, .tyFloat => true
  | .list _, .tyList => true
  | _, _ => false

def assocFind {α : Type} (k : String) : List (String × α) → Option α
  | [] => none
  | (k', v) :: rest => if k = k' then some v else assocFind k rest

/-- Outcome of `validate_fields`' recursive helper: `ok` (returns),
`structureError` (raised StructureError), or `typeError` (a Python-level
crash: `key not in sch` with `sch` a type object, or `.items()` on a
non-dict argument). -/
inductive FieldsOutcome where
  | ok
  | structureError
  | typeError
deriving DecidableEq

mutual

/-- The `helper(obj, sch)` function of `validate_fields`.  Iterating
`obj.items()` over a non-dict crashes; iterating with a type object as
`sch` crashes on the first item (`key not in sch` raises TypeError) but
returns normally when there are no items. -/
def vfHelper (sch : PySchema) : PyVal → FieldsOutcome
  | .dict entries => vfEntries sch entries
  | _ => .typeError

/-- The `for key, value in obj.items()` loop of `helper`, raising at the
first offending entry. -/
def vfEntries (sch : PySchema) : List (String × PyVal) → FieldsOutcome
  | [] => .ok
  | (k, v) :: rest =>
    match sch with
    | .dict sd =>
      match assocFind k sd with
      | none => .structureError
      | some sub =>
        match v with
        | .dict d' =>
          match vfHelper sub (.dict d') with
          | .ok => vfEntries sch rest
          | e => e
        | _ =>
          match sub with
          | .dict _ => vfEntries sch rest
          | t => if isinst v t then vfEntries sch rest else .structureError
    | _ => .typeError

end

/-- `validate_fields` from validate_ggg.py. -/
def validateFields (doc : PyVal) : FieldsOutcome :=
  vfHelper gggSchema doc

/-- Outcome of `validate_segs`: `ok`, a raised StructureError (a form or
gloss line failed to parse), a raised AlignmentError (token counts,
types, or process counts disagree), or a Python-level crash (missing
key, non-string field, non-list `segs`, ...). -/
inductive SegsOutcome where
  | ok
  | structureErr
  | alignmentErr
  | crash
deriving DecidableEq

/-- The per-token loop of `validate_segs`: morph types must agree, then
`validate_procs` must pass. -/
def vsTokenLoop : List (FormMorph × FormMorph × (String × GlossMorphV)) → SegsOutcome
  | [] => .ok
  | (u, s, g) :: rest =>
    if u.1 = s.1 ∧ s.1 = g.1 then
      if validateProcs u.2 s.2 g.2 then .alignmentErr else vsTokenLoop rest
    else .alignmentErr

/-- Python `zip` of the three equal-length parses. -/
def zip3Tok : List FormMorph → List FormMorph → List (String × GlossMorphV) →
    List (FormMorph × FormMorph × (String × GlossMorphV))
  | u :: us, s :: ss, g :: gs => (u, s, g) :: zip3Tok us ss gs
  | _, _, _ => []

/-- Validation of one record of `doc["segs"]`: fetch and parse the `ur`,
`sr` and `gl` fields in order (a missing or non-string field is a crash,
a failed parse a StructureError), then check token counts and the
per-token conditions. -/
def vsSeg (seg : PyVal) : SegsOutcome :=
  match seg with
  | .dict d =>
    match assocFind "ur" d with
    | some (.str urs) =>
      (match parseFull urFormG urs with
       | none => .structureErr
       | some ur =>
         match assocFind "sr" d with
         | some (.str srs) =>
           (match parseFull srFormG srs with
            | none => .structureErr
            | some sr =>
              match assocFind "gl" d with
              | some (.str gls) =>
                (match parseFull glossFormG gls with
                 | none => .structureErr
                 | some gl =>
                   if ur.length = sr.length ∧ sr.length = gl.length then
                     vsTokenLoop (zip3Tok ur sr gl)
                   else .alignmentErr)
              | _ => .crash)
         | _ => .crash)
    | _ => .crash
  | _ => .crash

def vsSegLoop : List PyVal → SegsOutcome
  | [] => .ok
  | seg :: rest =>
    match vsSeg seg with
    | .ok => vsSegLoop rest
    | e => e

/-- `validate_segs` from validate_ggg.py.  `doc["segs"]` must exist; a
non-list value is a crash unless it is an empty iterable (an empty string
or dict iterates zero segments and the loop body never runs). -/
def validateSegs (doc : PyVal) : SegsOutcome :=
  match doc with
  | .dict d =>
    match assocFind "segs" d with
    | some (.list segs) => vsSegLoop segs
    | some (.str s) => if s.length = 0 then .ok else .crash
    | some (.dict d2) => if d2.isEmpty then .ok else .crash
    | some _ => .crash
    | none => .crash
  | _ => .crash

/-!
## The top-level `validate` driver

`validate` wraps the whole body in `except ParseError / except
StructureError / except AlignmentError` handlers that print and return.
The yaml `ParserError` raised for a file that is not valid YAML matches
none of them (parsy's `ParseError` is an unrelated class), so it
propagates to the caller, as does any Python-level crash.
-/

/-- What `validate` does for one file: return normally (all validation
errors are printed, not re-raised) or let an exception propagate. -/
inductive RunOutcome where
  | returns
  | propagatesYamlErr
  | propagatesCrash
deriving DecidableEq

/-- `validate` from validate_ggg.py, parameterised by the result of the
external YAML load: `none` models a file the YAML parser rejects (the
re-raised `ParserError("Invalid YAML.")`), `some doc` a loaded document. -/
def validateRun (loadRes : Option PyVal) : RunOutcome :=
  match loadRes with
  | none => .propagatesYamlErr
  | some doc =>
    match validateFields doc with
    | .structureError => .returns
    | .typeError => .propagatesCrash
    | .ok =>
      match validateSegs doc with
      | .ok => .returns
      | .structureErr => .returns
      | .alignmentErr => .returns
      | .crash => .propagatesCrash

/-!
## Helper lemmas
-/

theorem foldl_inv {α σ : Type} (P : σ → Prop) (f : σ → α → σ)
    (hf : ∀ s a, P s → P (f s a)) :
    ∀ (l : List α) (s : σ), P s → P (l.foldl f s) := by
  intro l
  induction l with
  | nil => intro s hs; simpa using hs
  | cons a t ih =>
    intro s hs
    simp only [List.foldl_cons]
    exact ih (f s a) (hf s a hs)

theorem mapOpt_mem {α β : Type} (f : α → Option β) :
    ∀ (l : List α) (ms : List β), mapOpt f l = some ms →
      ∀ x ∈ ms, ∃ a, f a = some x := by
  intro l
  induction l with
  | nil =>
    intro ms h x hx
    simp only [mapOpt, Option.some.injEq] at h
    subst h
    simp at hx
  | cons a t ih =>
    intro ms h x hx
    simp only [mapOpt] at h
    cases ha : f a with
    | none => rw [ha] at h; exact absurd h (by simp)
    | some b =>
      rw [ha] at h
      cases ht : mapOpt f t with
      | none => rw [ht] at h; exact absurd h (by simp)
      | some bs =>
        rw [ht] at h
        simp only [Option.some.injEq] at h
        subst h
        rcases List.mem_cons.mp hx with hx | hx
        · exact ⟨a, by rw [ha, hx]⟩
        · exact ih bs ht x hx

/-- The span invariant of the `parse_ur_morph` loop: the generator never
yields 0 again, the current span is at least 1 whenever the current op is
"A", and every emitted character with op "A" has span at least 1 (the
`"}"` and end-of-morph retags touch only tags, never ops or spans). -/
theorem stepURMorph_spanAInv {len : Nat} {st st' : MorphState} {ic : Nat × Char}
    (hcnt : 1 ≤ st.counter)
    (hop : st.op = "A" → 1 ≤ st.span)
    (hrev : ∀ c ∈ st.rev, c.op = "A" → 1 ≤ c.span)
    (h : stepURMorph len st ic = some st') :
    1 ≤ st'.counter ∧ (st'.op = "A" → 1 ≤ st'.span) ∧
      ∀ c ∈ st'.rev, c.op = "A" → 1 ≤ c.span := by
  obtain ⟨i, c⟩ := ic
  by_cases hc1 : c = ' '
  · subst hc1
    simp only [stepURMorph] at h
    simp at h
    subst h
    refine ⟨?_, ?_, ?_⟩
    · dsimp only
      omega
    · dsimp only
      intro hx
      exact absurd hx (by decide)
    · exact hrev
  · by_cases hc2 : c = '-'
    · subst hc2
      by_cases hi0 : i = 0
      · subst hi0
        simp only [stepURMorph] at h
        simp at h
        subst h
        exact ⟨hcnt, hop, hrev⟩
      · simp only [stepURMorph] at h
        simp [hi0] at h
        by_cases hil : i = len - 1
        · rw [if_pos hil] at h
          simp at h
          subst h
          exact ⟨hcnt, hop, hrev⟩
        · rw [if_neg hil] at h
          simp at h
          subst h
          exact ⟨hcnt, hop, hrev⟩
    · by_cases hc3 : c = '{'
      · subst hc3
        simp only [stepURMorph] at h
        simp at h
        subst h
        refine ⟨hcnt, ?_, hrev⟩
        dsimp only
        intro hx
        exact absurd hx (by decide)
      · by_cases hc4 : c = '>'
        · subst hc4
          simp only [stepURMorph] at h
          simp at h
          subst h
          refine ⟨?_, ?_, ?_⟩
          · dsimp only
            omega
          · dsimp only
            intro _
            exact_mod_cast hcnt
          · exact hrev
        · by_cases hc5 : c = '}'
          · subst hc5
            simp only [stepURMorph] at h
            simp at h
            rcases hrv : st.rev with _ | ⟨last, rest⟩
            · rw [hrv] at h
              simp at h
            · rw [hrv] at h
              rw [hrv] at hrev
              by_cases hA : last.op = "A"
              · simp [hA] at h
                subst h
                refine ⟨hcnt, ?_, ?_⟩
                · dsimp only
                  intro hx
                  exact absurd hx (by decide)
                · dsimp only
                  intro d hd hdA
                  rcases List.mem_cons.mp hd with hd | hd
                  · subst hd
                    exact hrev last (List.mem_cons_self _ _) hA
                  · exact hrev d (List.mem_cons_of_mem _ hd) hdA
              · simp [hA] at h
                subst h
                refine ⟨hcnt, ?_, hrev⟩
                dsimp only
                intro hx
                exact absurd hx (by decide)
          · simp only [stepURMorph] at h
            simp [hc1, hc2, hc3, hc4, hc5] at h
            subst h
            refine ⟨hcnt, ?_, ?_⟩
            · dsimp only
              exact hop
            · dsimp only
              intro d hd hdA
              rcases List.mem_cons.mp hd with hd | hd
              · subst hd
                exact hop hdA
              · exact hrev d hd hdA

theorem runURMorph_spanAInv {len : Nat} :
    ∀ (l : List (Nat × Char)) (st st' : MorphState),
      1 ≤ st.counter → (st.op = "A" → 1 ≤ st.span) →
      (∀ c ∈ st.rev, c.op = "A" → 1 ≤ c.span) →
      runURMorph len st l = some st' →
      1 ≤ st'.counter ∧ (st'.op = "A" → 1 ≤ st'.span) ∧
        ∀ c ∈ st'.rev, c.op = "A" → 1 ≤ c.span := by
  intro l
  induction l with
  | nil =>
    intro st st' h1 h2 h3 h
    simp only [runURMorph, Option.some.injEq] at h
    subst h
    exact ⟨h1, h2, h3⟩
  | cons ic rest ih =>
    intro st st' h1 h2 h3 h
    simp only [runURMorph] at h
    cases hs : stepURMorph len st ic with
    | none => rw [hs] at h; exact absurd h (by simp)
    | some st1 =>
      rw [hs] at h
      obtain ⟨g1, g2, g3⟩ := stepURMorph_spanAInv h1 h2 h3 hs
      exact ih st1 st' g1 g2 g3 h

/-- Every character emitted by `parse_ur_morph` in an alignment region
(op "A", i.e. with a span allocated by `>`) carries a morph-local span of
at least 1: the morph's base span 0 is never an alignment span. -/
theorem parseURMorphL_spanA (cs : List Char) (t : String) (chars : List Character)
    (h : parseURMorphL cs = some (t, chars)) :
    ∀ c ∈ chars, c.op = "A" → 1 ≤ c.span := by
  unfold parseURMorphL at h
  cases hr : runURMorph cs.length ⟨1, [], 0, 0, "B", "S", "root"⟩ cs.enum with
  | none => rw [hr] at h; dsimp only at h; exact absurd h (by simp)
  | some st =>
    rw [hr] at h
    dsimp only at h
    have hinv := runURMorph_spanAInv cs.enum _ st (by decide)
      (by intro hx; exact absurd hx (by decide)) (by intro c hc; simp at hc) hr
    rcases hrv : st.rev with _ | ⟨last, rest⟩
    · rw [hrv] at h
      exact absurd h (by simp)
    · rw [hrv] at h
      rw [hrv] at hinv
      simp only [Option.some.injEq, Prod.mk.injEq] at h
      obtain ⟨-, hchars⟩ := h
      subst hchars
      intro c hc hcA
      rw [List.mem_reverse] at hc
      rcases List.mem_cons.mp hc with hc | hc
      · subst hc
        exact hinv.2.2 last (List.mem_cons_self _ _) (by simpa using hcA)
      · exact hinv.2.2 c (List.mem_cons_of_mem _ hc) hcA

/-- `bindProc` keeps the offset at least 1 and binds only non-negative
span keys. -/
theorem bindProc_inv (matrix : Nat) (st : Int × List (Int × String))
    (pr : String × List Nat) (h1 : 1 ≤ st.1) (h2 : ∀ p ∈ st.2, 0 ≤ p.1) :
    1 ≤ (bindProc matrix st pr).1 ∧ ∀ p ∈ (bindProc matrix st pr).2, 0 ≤ p.1 := by
  obtain ⟨ft, idxs⟩ := pr
  cases idxs with
  | nil =>
    dsimp only [bindProc]
    refine ⟨by omega, ?_⟩
    intro p hp
    rcases List.mem_cons.mp hp with hp | hp
    · subst hp
      simp
      omega
    · exact h2 p hp
  | cons sp0 sps =>
    dsimp only [bindProc]
    constructor
    · have hmx : 1 ≤ (sp0 :: sps).foldl (fun mx (sp : Nat) => max (sp : Int) mx) st.1 := by
        refine foldl_inv (fun mx => 1 ≤ mx) _ ?_ (sp0 :: sps) st.1 h1
        intro s a hs
        exact le_trans hs (le_max_right _ _)
      exact le_trans (by omega) (le_max_left _ _)
    · refine foldl_inv (fun acc => ∀ p ∈ acc, 0 ≤ p.1) _ ?_ (sp0 :: sps) st.2 h2
      intro s a hs p hp
      rcases List.mem_cons.mp hp with hp | hp
      · subst hp
        simp
        omega
      · exact hs p hp

/-- `bindMorph` preserves the same invariant. -/
theorem bindMorph_inv (st : Int × List (Int × String)) (im : Nat × GlossMorphB)
    (h1 : 1 ≤ st.1) (h2 : ∀ p ∈ st.2, 0 ≤ p.1) :
    1 ≤ (bindMorph st im).1 ∧ ∀ p ∈ (bindMorph st im).2, 0 ≤ p.1 := by
  simp only [bindMorph]
  refine foldl_inv (fun s => 1 ≤ s.1 ∧ ∀ p ∈ s.2, 0 ≤ p.1)
    (bindProc im.1) ?_ im.2.2 (st.1, ((im.1 : Int), im.2.1) :: st.2) ⟨h1, ?_⟩
  · intro s a hs
    exact bindProc_inv im.1 s a hs.1 hs.2
  · intro p hp
    rcases List.mem_cons.mp hp with hp | hp
    · subst hp
      simp
    · exact h2 p hp

/-- Every span key the Gloss-to-Span Binder ever writes is
non-negative: a morph's own key is its matrix index, an unqualified
process key is matrix plus the (positive) offset, a qualified one is
matrix plus a parsed (non-negative) digit index. -/
theorem spanGlosses_keys_nonneg (gl : List GlossMorphB) :
    ∀ p ∈ spanGlosses gl, 0 ≤ p.1 := by
  unfold spanGlosses
  have := foldl_inv (fun s : Int × List (Int × String) => 1 ≤ s.1 ∧ ∀ p ∈ s.2, 0 ≤ p.1)
    bindMorph (fun s a hs => bindMorph_inv s a hs.1 hs.2) gl.enum (1, [])
    ⟨by norm_num, by intro p hp; simp at hp⟩
  exact this.2

/-- Python `d[k]` raises KeyError on a negative key when all keys of `d`
are non-negative. -/
theorem dictFind_neg_none (sg : List (Int × String)) (h : ∀ p ∈ sg, 0 ≤ p.1)
    (k : Int) (hk : k < 0) : dictFind k sg = none := by
  induction sg with
  | nil => rfl
  | cons p rest ih =>
    obtain ⟨k', v⟩ := p
    have hk' : 0 ≤ k' := h (k', v) (List.mem_cons_self _ _)
    simp only [dictFind]
    rw [if_neg (by omega)]
    exact ih (fun q hq => h q (List.mem_cons_of_mem _ hq))

/-- If some character's span has no binding, the stamping loop of
`merged_form_gloss` raises (returns `none`). -/
theorem stampChars_none (sg : List (Int × String)) (cs : List Character)
    (c : Character) (hc : c ∈ cs) (hfind : dictFind c.span sg = none) :
    stampChars sg cs = none := by
  induction cs with
  | nil => simp at hc
  | cons d rest ih =>
    rcases List.mem_cons.mp hc with hc | hc
    · subst hc
      simp only [stampChars, hfind]
    · simp only [stampChars]
      cases hd : dictFind d.span sg with
      | none => rfl
      | some g =>
        rw [ih hc]

/-- If the morph-type sequence has a word-boundary transition, the
assembled UR character list contains the synthetic span −1 boundary
character. -/
theorem urAssemble_boundary_mem :
    ∀ (ms : List (String × List Character)) (i : Nat) (lt : String),
      hasBoundary (ms.map Prod.fst) = true → boundaryChar ∈ urAssemble i lt ms := by
  intro ms
  induction ms with
  | nil =>
    intro i lt h
    simp [hasBoundary] at h
  | cons m1 tail ih =>
    intro i lt h
    obtain ⟨t1, ch1⟩ := m1
    cases tail with
    | nil =>
      simp [hasBoundary] at h
    | cons m2 rest =>
      obtain ⟨t2, ch2⟩ := m2
      simp only [List.map_cons, hasBoundary, Bool.or_eq_true] at h
      rcases h with h | h
      · have hin : boundaryChar ∈ urAssemble (i + 1) t1 ((t2, ch2) :: rest) := by
          rw [urAssemble]
          rw [if_pos h]
          simp
        rw [urAssemble]
        simp only [List.mem_append]
        exact Or.inr hin
      · have hin := ih (i + 1) t1 (by simpa [hasBoundary] using h)
        rw [urAssemble]
        simp only [List.mem_append]
        exact Or.inr hin

/-!
## Claim theorems
-/

/-- C1: running the Span Numbering Engine on the single UR morph
`"a{b>c}d"` returns morph type root and exactly the four characters
a(B,S,0), b(I,D,0), c(U,A,1), d(L,S,0), in this order, each with an
empty gloss. -/
theorem parseURMorph_process_example :
    parseURMorph "a\x7bb>c\x7dd" =
      some ("root",
        [⟨'a', "B", "S", 0, ""⟩, ⟨'b', "I", "D", 0, ""⟩,
         ⟨'c', "U", "A", 1, ""⟩, ⟨'d', "L", "S", 0, ""⟩]) := by rfl

/-- C2 counterexample: on the UR line `"a{b>c}d e"` the span allocated
via `>` inside the first morph (character c, op "A", span 1) equals the
base span id of the second morph (character e, span 1 = its morph
ordinal), so span ids other than −1 do not identify exactly one
morph-or-process unit across the line. -/
theorem parseUR_span_collision :
    parseUR "a\x7bb>c\x7dd e" =
      some [⟨'a', "B", "S", 0, ""⟩, ⟨'b', "I", "D", 0, ""⟩, ⟨'c', "U", "A", 1, ""⟩,
            ⟨'d', "L", "S", 0, ""⟩, ⟨' ', "O", "S", -1, ""⟩, ⟨'e', "L", "S", 1, ""⟩] ∧
    urMorphOutputs "a\x7bb>c\x7dd e" =
      some [("root",
             [⟨'a', "B", "S", 0, ""⟩, ⟨'b', "I", "D", 0, ""⟩,
              ⟨'c', "U", "A", 1, ""⟩, ⟨'d', "L", "S", 0, ""⟩]),
            ("root", [⟨'e', "L", "S", 0, ""⟩])] := ⟨rfl, rfl⟩

/-- C2 (amended): a span id allocated via `>` inside morph `i` of a UR
line is morph-locally at least 1, so its line-level value (local span
plus the morph's start span `i`) differs from the base span id `j` of
every morph `j ≤ i`; collisions are only possible with the base spans of
later morphs (see the counterexample). -/
theorem spanA_no_collision_with_earlier_base
    (ur : String) (ms : List (String × List Character))
    (h : urMorphOutputs ur = some ms) (i : Nat) (hi : i < ms.length)
    (c : Character) (hc : c ∈ (ms.get ⟨i, hi⟩).2) (hA : c.op = "A")
    (j : Nat) (hj : j ≤ i) :
    (1 : Int) ≤ c.span ∧ c.span + (i : Int) ≠ (j : Int) := by
  have hmem : ms.get ⟨i, hi⟩ ∈ ms := List.get_mem ms i hi
  obtain ⟨cs, hcs⟩ := mapOpt_mem parseURMorphL _ _ h _ hmem
  rcases hx : ms.get ⟨i, hi⟩ with ⟨t, ch⟩
  rw [hx] at hcs
  rw [hx] at hc
  have hs := parseURMorphL_spanA cs t ch hcs c hc hA
  refine ⟨hs, ?_⟩
  omega

/-- C2 witness: the amended theorem applied to `"a{b>c}d e"`, morph 0,
character c, against morph index 0. -/
theorem spanA_no_collision_with_earlier_base_witness :
    (1 : Int) ≤ (Character.mk 'c' "U" "A" 1 "").span ∧
      (Character.mk 'c' "U" "A" 1 "").span + (0 : Int) ≠ (0 : Int) :=
  spanA_no_collision_with_earlier_base "a\x7bb>c\x7dd e"
    [("root",
      [⟨'a', "B", "S", 0, ""⟩, ⟨'b', "I", "D", 0, ""⟩,
       ⟨'c', "U", "A", 1, ""⟩, ⟨'d', "L", "S", 0, ""⟩]),
     ("root", [⟨'e', "L", "S", 0, ""⟩])]
    rfl 0 (by norm_num) (Character.mk 'c' "U" "A" 1 "") (by decide) rfl 0 (by decide)

/-- C3: for a gloss morph at matrix index `m` with processes
`[("X", []), ("Y", [2])]` and the binder offset entering at its initial
value 1, `span_glosses[m]` is the morph's base feature,
`span_glosses[m+1] = "X"`, `span_glosses[m+2] = "Y"`, and the offset is
3 afterwards. -/
theorem bindMorph_offset_rule (m : Nat) (base : String) :
    bindMorph (1, []) (m, (base, [("X", []), ("Y", [2])])) =
      (3, [((m : Int) + 2, "Y"), ((m : Int) + 1, "X"), ((m : Int), base)]) ∧
    dictFind ((m : Int)) (bindMorph (1, []) (m, (base, [("X", []), ("Y", [2])]))).2
      = some base ∧
    dictFind ((m : Int) + 1) (bindMorph (1, []) (m, (base, [("X", []), ("Y", [2])]))).2
      = some "X" ∧
    dictFind ((m : Int) + 2) (bindMorph (1, []) (m, (base, [("X", []), ("Y", [2])]))).2
      = some "Y" := by
  have h : bindMorph (1, []) (m, (base, [("X", []), ("Y", [2])])) =
      (3, [((m : Int) + 2, "Y"), ((m : Int) + 1, "X"), ((m : Int), base)]) := by
    dsimp only [bindMorph, bindProc, List.foldl]
    norm_num
  refine ⟨h, ?_, ?_, ?_⟩
  · rw [h]
    simp [dictFind]
  · rw [h]
    simp [dictFind]
  · rw [h]
    simp [dictFind]

/-- C4: for every UR line whose morph sequence contains a word-boundary
transition and every gloss line, `merged_form_gloss` fails (the
synthetic boundary character carries span −1 and the binder never binds
a negative span key, so the final stamping loop raises a lookup error;
an unparseable gloss line also fails, at the earlier parse step). -/
theorem mergedFormGloss_boundary_unbound (ur gl : String) (ts : List String)
    (hts : urMorphTypes ur = some ts) (hb : hasBoundary ts = true) :
    mergedFormGloss ur gl = none ∧
      ∀ g : List GlossMorphB, dictFind (-1) (spanGlosses g) = none := by
  have hkeys : ∀ g : List GlossMorphB, dictFind (-1) (spanGlosses g) = none := by
    intro g
    exact dictFind_neg_none _ (spanGlosses_keys_nonneg g) _ (by norm_num)
  refine ⟨?_, hkeys⟩
  cases hms : urMorphOutputs ur with
  | none =>
    rw [urMorphTypes, hms] at hts
    exact absurd hts (by simp)
  | some ms =>
    rw [urMorphTypes, hms] at hts
    simp only [Option.map_some', Option.some.injEq] at hts
    have hmem : boundaryChar ∈ urAssemble 0 "prefix" ms := by
      apply urAssemble_boundary_mem
      rw [hts]
      exact hb
    have hpur : parseUR ur = some (urAssemble 0 "prefix" ms) := by
      rw [parseUR, hms]
      rfl
    rw [mergedFormGloss, hpur]
    cases hgl : parseGloss gl with
    | none => rfl
    | some g =>
      dsimp only
      exact stampChars_none _ _ boundaryChar hmem (hkeys g)

/-- C4 witness: the theorem applied to the UR `"ab cd"` (a root → root
word boundary) and the gloss `"x y"`. -/
theorem mergedFormGloss_boundary_unbound_witness :
    mergedFormGloss "ab cd" "x y" = none :=
  (mergedFormGloss_boundary_unbound "ab cd" "x y" ["root", "root"] rfl (by decide)).1

theorem numGlossProcs_foldl (l : List (String × List Int)) :
    ∀ n : Nat, l.foldl (fun n pr => n + pr.2.length) n =
      n + (l.map (fun pr => pr.2.length)).sum := by
  induction l with
  | nil => intro n; simp
  | cons pr rest ih =>
    intro n
    simp only [List.foldl_cons, List.map_cons, List.sum_cons]
    rw [ih]
    omega

/-- C5: the process-count check fails exactly when the three counts are
not all equal; the UR/SR count is the number of `("proc", _)` tokens,
the gloss count sums the index-list lengths (an unqualified process
parses to the one-element sentinel list `[-1]`, hence contributes 1).
In particular UR `"cat"`, SR `"cat"`, GL `"cat{NOUN}"` gives counts
0/0/1 and an AlignmentError. -/
theorem validateProcs_iff_counts :
    (∀ (u s : List (String × String)) (g : GlossMorphV),
       validateProcs u s g = true ↔
         ¬(numFormProcs u = numFormProcs s ∧
           numFormProcs s = (g.2.map (fun pr => pr.2.length)).sum)) ∧
    parseFull urFormG "cat" = some [("root", [("seg", "cat")])] ∧
    parseFull srFormG "cat" = some [("root", [("seg", "cat")])] ∧
    parseFull glossFormG "cat\x7bNOUN\x7d" =
      some [("root", ("cat", [("NOUN", [-1])]))] ∧
    validateProcs [("seg", "cat")] [("seg", "cat")] ("cat", [("NOUN", [-1])]) = true ∧
    numFormProcs [("seg", "cat")] = 0 ∧
    numGlossProcs ("cat", [("NOUN", [-1])]) = 1 := by
  refine ⟨?_, rfl, rfl, rfl, rfl, rfl, rfl⟩
  intro u s g
  have hsum : numGlossProcs g = (g.2.map (fun pr => pr.2.length)).sum := by
    unfold numGlossProcs
    rw [numGlossProcs_foldl]
    omega
  rw [← hsum]
  by_cases h1 : numFormProcs u = numFormProcs s <;>
    by_cases h2 : numFormProcs s = numGlossProcs g <;>
      simp [validateProcs, h1, h2]

/-- C7 counterexample: the gloss grammar rejects `"un-do"`: the prefix
alternative greedily consumes `"un-"`, the space separator then fails on
`"do"`, and the parse does not reach end of input (parsy's ordered
choice does not reconsider the committed prefix alternative). -/
theorem gloss_rejects_undo_nospace : parseFull glossFormG "un-do" = none := rfl

/-- C7 (amended): with the mandatory space separator, `"un- do"` parses
to [(prefix, ("un", [])), (root, ("do", []))], while the unspaced
`"un-do"` of the claim fails to parse. -/
theorem gloss_parses_undo_spaced :
    parseFull glossFormG "un- do" =
      some [("prefix", ("un", [])), ("root", ("do", []))] ∧
    parseFull glossFormG "un-do" = none := ⟨rfl, rfl⟩

/-- C8 counterexample: the Span Numbering Engine fails on the empty UR
line (Python `"".split(" ")` yields `[""]` and `parse_ur_morph("")`
raises an IndexError retagging the last of zero characters) instead of
returning the empty character sequence. -/
theorem parseUR_empty_fails : parseUR "" = none := rfl

/-- C8 (amended): the empty line is legal for the UR form grammar and
for both gloss grammars (zero morphs), but the Span Numbering Engine
raises on the empty UR line. -/
theorem empty_line_grammar_ok :
    parseFull urFormG "" = some [] ∧ parseFull srFormG "" = some [] ∧
    parseFull glossFormG "" = some [] ∧ parseGloss "" = some [] ∧
    parseUR "" = none := ⟨rfl, rfl, rfl, rfl, rfl⟩

/-- C9 counterexample: a document whose `segs` record has a key absent
from the schema ("bogus") and a schema key with a mismatched value type
("speaker" as a string) passes `validate_fields` without any error: the
helper recurses only into dict values, and `segs` is a list, so its
records are never examined. -/
theorem validateFields_segs_unchecked :
    validateFields (.dict [("obj_lang", .str "en"), ("meta_lang", .list []),
      ("segs", .list [.dict [("bogus", .int 3), ("speaker", .str "x")]])]) = .ok := rfl

theorem vfEntries_unknown_key (sd : List (String × PySchema)) (k : String)
    (v : PyVal) (rest : List (String × PyVal))
    (hfind : assocFind k sd = none) :
    vfEntries (.dict sd) ((k, v) :: rest) = .structureError := by
  rw [vfEntries]
  rw [hfind]

/-- C9 (amended): at the levels the helper does examine (dict values
matched against dict schema nodes), an unknown key or a mismatched leaf
type raises StructureError and conforming documents pass; but the
contents of the `segs` list are never examined. -/
theorem validateFields_top_level_rule :
    (∀ (k : String) (v : PyVal),
       ¬(k = "obj_lang" ∨ k = "meta_lang" ∨ k = "segs") →
       validateFields (.dict [(k, v)]) = .structureError) ∧
    (∀ v : PyVal, (∀ d, v ≠ .dict d) → (∀ s, v ≠ .str s) →
       validateFields (.dict [("obj_lang", v)]) = .structureError) ∧
    (∀ (s : String) (ml : List PyVal) (sv : List PyVal),
       validateFields (.dict [("obj_lang", .str s), ("meta_lang", .list ml),
         ("segs", .list sv)]) = .ok) := by
  refine ⟨?_, ?_, ?_⟩
  · intro k v hk
    push_neg at hk
    obtain ⟨hk1, hk2, hk3⟩ := hk
    show vfEntries gggSchema [(k, v)] = .structureError
    apply vfEntries_unknown_key
    simp only [assocFind]
    rw [if_neg hk1, if_neg hk2, if_neg hk3]
  · intro v hd hs
    cases v with
    | str s => exact absurd rfl (hs s)
    | dict d => exact absurd rfl (hd d)
    | int n => rfl
    | float => rfl
    | list l => rfl
  · intro s ml sv
    rfl

/-- C9 witness: the amended theorem at an unknown key, a mismatched
type, and a conforming document with an arbitrary (never examined)
`segs` record. -/
theorem validateFields_top_level_rule_witness :
    validateFields (.dict [("bogus", .int 0)]) = .structureError ∧
    validateFields (.dict [("obj_lang", .int 0)]) = .structureError ∧
    validateFields (.dict [("obj_lang", .str "x"), ("meta_lang", .list []),
      ("segs", .list [.dict [("zzz", .int 9)]])]) = .ok :=
  ⟨validateFields_top_level_rule.1 "bogus" (.int 0) (by simp),
   validateFields_top_level_rule.2.1 (.int 0)
     (fun d h => PyVal.noConfusion h) (fun s h => PyVal.noConfusion h),
   validateFields_top_level_rule.2.2 "x" [] [.dict [("zzz", .int 9)]]⟩

/-- C10 counterexample: a file that is not valid YAML makes `validate`
propagate the yaml ParserError to the caller (`except ParseError`
catches only parsy's unrelated ParseError class), so `validate` does not
return normally for every input file. -/
theorem validate_invalid_yaml_propagates :
    validateRun none = .propagatesYamlErr ∧ validateRun none ≠ .returns :=
  ⟨rfl, by decide⟩

/-- C10 (amended): for any loaded document whose validation raises only
the handled kinds (StructureError from the schema check or a parse
failure, AlignmentError from segment checks) — i.e. no Python-level
crash — `validate` returns normally; the yaml ParserError of an invalid
YAML file propagates. -/
theorem validate_catches_validation_errors :
    (∀ doc : PyVal, validateFields doc ≠ .typeError → validateSegs doc ≠ .crash →
       validateRun (some doc) = .returns) ∧
    validateRun none = .propagatesYamlErr := by
  constructor
  · intro doc h1 h2
    cases hf : validateFields doc with
    | ok =>
      cases hs : validateSegs doc with
      | ok => simp [validateRun, hf, hs]
      | structureErr => simp [validateRun, hf, hs]
      | alignmentErr => simp [validateRun, hf, hs]
      | crash => exact absurd hs h2
    | structureError => simp [validateRun, hf]
    | typeError => exact absurd hf h1
  · rfl

/-- C10 witness: the amended theorem at a well-formed document with an
empty `segs` list. -/
theorem validate_catches_validation_errors_witness :
    validateRun (some (.dict [("obj_lang", .str "en"), ("meta_lang", .list []),
      ("segs", .list [])])) = .returns :=
  validate_catches_validation_errors.1
    (.dict [("obj_lang", .str "en"), ("meta_lang", .list []), ("segs", .list [])])
    (by decide) (by decide)

theorem takeWhile_middle (p : Char → Bool) :
    ∀ (s : List Char) (c : Char) (r : List Char),
      (∀ x ∈ s, p x = true) → p c = false →
      ((s ++ c :: r).takeWhile p = s ∧ (s ++ c :: r).dropWhile p = c :: r) := by
  intro s
  induction s with
  | nil =>
    intro c r _ hc
    simp [List.takeWhile_cons, List.dropWhile_cons, hc]
  | cons a s ih =>
    intro c r hall hc
    have ha : p a = true := hall a (List.mem_cons_self _ _)
    have hrest := ih c r (fun x hx => hall x (List.mem_cons_of_mem _ hx)) hc
    simp [List.takeWhile_cons, List.dropWhile_cons, ha, hrest.1, hrest.2]

theorem ptake0_middle (p : Char → Bool) (s : List Char) (c : Char) (r : List Char)
    (hall : ∀ x ∈ s, p x = true) (hc : p c = false) :
    ptake0 p (s ++ c :: r) = some (String.mk s, c :: r) := by
  unfold ptake0
  rw [(takeWhile_middle p s c r hall hc).1, (takeWhile_middle p s c r hall hc).2]

theorem ptake1_head_fail (p : Char → Bool) (c : Char) (r : List Char)
    (hc : p c = false) : ptake1 p (c :: r) = none := by
  unfold ptake1
  simp [List.takeWhile_cons, hc]

theorem smk_append (a b : List Char) : String.mk a ++ String.mk b = String.mk (a ++ b) := rfl

theorem urProcP_run (s t rest : List Char)
    (hs : ∀ c ∈ s, urInnerOK c = true) (ht : ∀ c ∈ t, urInnerOK c = true) :
    urProcP ('{' :: (s ++ '>' :: (t ++ '}' :: rest))) =
      some (("proc", String.mk ('{' :: (s ++ '>' :: (t ++ ['}'])))), rest) := by
  have h1 : pchar '{' ('{' :: (s ++ '>' :: (t ++ '}' :: rest))) =
      some (String.mk ['{'], s ++ '>' :: (t ++ '}' :: rest)) := by
    unfold pchar
    simp
  have h2 : ptake0 urInnerOK (s ++ '>' :: (t ++ '}' :: rest)) =
      some (String.mk s, '>' :: (t ++ '}' :: rest)) :=
    ptake0_middle _ _ _ _ hs (by decide)
  have h3 : pchar '>' ('>' :: (t ++ '}' :: rest)) =
      some (String.mk ['>'], t ++ '}' :: rest) := by
    unfold pchar
    simp
  have h4 : ptake0 urInnerOK (t ++ '}' :: rest) = some (String.mk t, '}' :: rest) :=
    ptake0_middle _ _ _ _ ht (by decide)
  have h5 : pchar '}' ('}' :: rest) = some (String.mk ['}'], rest) := by
    unfold pchar
    simp
  unfold urProcP pmap pcat pseq2
  rw [h1]
  dsimp only
  rw [h2]
  dsimp only
  rw [h3]
  dsimp only
  rw [h4]
  dsimp only
  rw [h5]
  dsimp only
  refine congrArg (fun x => some (("proc", x), rest)) ?_
  apply String.ext
  simp [String.data_append]

theorem urProcP_no_arrow (s rest : List Char)
    (hs : ∀ c ∈ s, urInnerOK c = true) :
    urProcP ('{' :: (s ++ '}' :: rest)) = none := by
  have h1 : pchar '{' ('{' :: (s ++ '}' :: rest)) =
      some (String.mk ['{'], s ++ '}' :: rest) := by
    unfold pchar
    simp
  have h2 : ptake0 urInnerOK (s ++ '}' :: rest) = some (String.mk s, '}' :: rest) :=
    ptake0_middle _ _ _ _ hs (by decide)
  have h3 : pchar '>' ('}' :: rest) = none := by
    unfold pchar
    simp
  unfold urProcP pmap pcat pseq2
  rw [h1]
  dsimp only
  rw [h2]
  dsimp only
  rw [h3]

theorem por_eq_some {α : Type} (p q : PF α) (l : List Char) (x : α × List Char)
    (h : p l = some x) : por p q l = some x := by
  unfold por
  rw [h]

theorem por_eq_none_right {α : Type} (p q : PF α) (l : List Char)
    (h : p l = none) : por p q l = q l := by
  unfold por
  rw [h]

theorem pseq2_run {α β γ : Type} (p : PF α) (q : PF β) (f : α → β → γ)
    (l : List Char) (a : α) (r : List Char) (b : β) (r' : List Char)
    (hp : p l = some (a, r)) (hq : q r = some (b, r')) :
    pseq2 p q f l = some (f a b, r') := by
  unfold pseq2
  rw [hp]
  dsimp only
  rw [hq]

theorem pseq2_fail1 {α β γ : Type} (p : PF α) (q : PF β) (f : α → β → γ)
    (l : List Char) (hp : p l = none) : pseq2 p q f l = none := by
  unfold pseq2
  rw [hp]

theorem pseq2_fail2 {α β γ : Type} (p : PF α) (q : PF β) (f : α → β → γ)
    (l : List Char) (a : α) (r : List Char)
    (hp : p l = some (a, r)) (hq : q r = none) : pseq2 p q f l = none := by
  unfold pseq2
  rw [hp]
  dsimp only
  rw [hq]

theorem pmap_some_of {α β : Type} (f : α → β) (p : PF α) (l : List Char)
    (a : α) (r : List Char) (h : p l = some (a, r)) :
    pmap f p l = some (f a, r) := by
  unfold pmap
  rw [h]

theorem pmap_none_of {α β : Type} (f : α → β) (p : PF α) (l : List Char)
    (h : p l = none) : pmap f p l = none := by
  unfold pmap
  rw [h]

theorem pmany_nil_of {α : Type} (p : PF α) (h : p [] = none) :
    pmany p [] = some ([], []) := by
  show pmanyFuel 1 p [] = some ([], [])
  unfold pmanyFuel
  rw [h]

theorem pchar_head_eq (c : Char) (r : List Char) :
    pchar c (c :: r) = some (String.mk [c], r) := by
  unfold pchar
  dsimp only
  rw [if_pos rfl]

theorem pchar_head_ne (c c' : Char) (r : List Char) (h : ¬c' = c) :
    pchar c (c' :: r) = none := by
  unfold pchar
  dsimp only
  rw [if_neg h]

theorem pchar_nil_none (c : Char) : pchar c [] = none := rfl

/-- C6 counterexample: `"{ab}"` — a UR process written without a target
— is rejected by the UR form grammar (`ur_proc` requires the `>`). -/
theorem urForm_rejects_braced_source : parseFull urFormG "\x7bab\x7d" = none := rfl

/-- C6 (amended): the UR process grammar requires the `>`: for every
source and target over the process character class (excluding `}` and
`>`), `{source>target}` parses as a single root morph holding one
process token — the target may even be empty — but `{source}` without
`>` is rejected by the whole UR form grammar. -/
theorem urProc_requires_arrow (s t : List Char)
    (hs : ∀ c ∈ s, urInnerOK c = true) (ht : ∀ c ∈ t, urInnerOK c = true) :
    parseFull urFormG (String.mk ('{' :: (s ++ '>' :: (t ++ ['}'])))) =
      some [("root", [("proc", String.mk ('{' :: (s ++ '>' :: (t ++ ['}']))))])] ∧
    parseFull urFormG (String.mk ('{' :: (s ++ ['}']))) = none := by
  constructor
  · have hproc := urProcP_run s t [] hs ht
    have hcoreA : urCore ('{' :: (s ++ '>' :: (t ++ ['}']))) =
        some ([("proc", String.mk ('{' :: (s ++ '>' :: (t ++ ['}']))))], []) := by
      unfold urCore pmany1
      apply pseq2_run
      · exact por_eq_some _ _ _ _ hproc
      · exact pmany_nil_of _ rfl
    have hsfx : urSfx ('{' :: (s ++ '>' :: (t ++ ['}']))) = none :=
      pseq2_fail1 _ _ _ _ (pchar_head_ne '-' '{' _ (by decide))
    have henc : urEnc ('{' :: (s ++ '>' :: (t ++ ['}']))) = none :=
      pseq2_fail1 _ _ _ _ (pchar_head_ne '=' '{' _ (by decide))
    have hpfx : urPfx ('{' :: (s ++ '>' :: (t ++ ['}']))) = none :=
      pseq2_fail2 _ _ _ _ _ _ hcoreA (pchar_nil_none '-')
    have hpcl : urPcl ('{' :: (s ++ '>' :: (t ++ ['}']))) = none :=
      pseq2_fail2 _ _ _ _ _ _ hcoreA (pchar_nil_none '=')
    have hroot : urRoot ('{' :: (s ++ '>' :: (t ++ ['}']))) =
        some (("root", [("proc", String.mk ('{' :: (s ++ '>' :: (t ++ ['}']))))]), []) :=
      pmap_some_of _ _ _ _ _ hcoreA
    have hmorph : urMorphG ('{' :: (s ++ '>' :: (t ++ ['}']))) =
        some (("root", [("proc", String.mk ('{' :: (s ++ '>' :: (t ++ ['}']))))]), []) := by
      unfold urMorphG
      rw [por_eq_none_right _ _ _ hsfx, por_eq_none_right _ _ _ henc,
        por_eq_none_right _ _ _ hpfx, por_eq_none_right _ _ _ hpcl]
      exact hroot
    have hform : urFormG ('{' :: (s ++ '>' :: (t ++ ['}']))) =
        some ([("root", [("proc", String.mk ('{' :: (s ++ '>' :: (t ++ ['}']))))])], []) := by
      unfold urFormG psepBy
      apply por_eq_some
      apply pseq2_run
      · exact hmorph
      · exact pmany_nil_of _ (pseq2_fail1 _ _ _ _ (pchar_nil_none ' '))
    unfold parseFull
    rw [show (String.mk ('{' :: (s ++ '>' :: (t ++ ['}'])))).toList
        = '{' :: (s ++ '>' :: (t ++ ['}'])) from rfl, hform]
  · have hproc' := urProcP_no_arrow s [] hs
    have hor : por urProcP formSeg ('{' :: (s ++ ['}'])) = none := by
      rw [por_eq_none_right _ _ _ hproc']
      exact pmap_none_of _ _ _ (ptake1_head_fail formSegOK '{' _ (by decide))
    have hcoreB : urCore ('{' :: (s ++ ['}'])) = none := by
      unfold urCore pmany1
      exact pseq2_fail1 _ _ _ _ hor
    have hsfx' : urSfx ('{' :: (s ++ ['}'])) = none :=
      pseq2_fail1 _ _ _ _ (pchar_head_ne '-' '{' _ (by decide))
    have henc' : urEnc ('{' :: (s ++ ['}'])) = none :=
      pseq2_fail1 _ _ _ _ (pchar_head_ne '=' '{' _ (by decide))
    have hpfx' : urPfx ('{' :: (s ++ ['}'])) = none :=
      pseq2_fail1 _ _ _ _ hcoreB
    have hpcl' : urPcl ('{' :: (s ++ ['}'])) = none :=
      pseq2_fail1 _ _ _ _ hcoreB
    have hroot' : urRoot ('{' :: (s ++ ['}'])) = none :=
      pmap_none_of _ _ _ hcoreB
    have hmorph' : urMorphG ('{' :: (s ++ ['}'])) = none := by
      unfold urMorphG
      rw [por_eq_none_right _ _ _ hsfx', por_eq_none_right _ _ _ henc',
        por_eq_none_right _ _ _ hpfx', por_eq_none_right _ _ _ hpcl']
      exact hroot'
    have hform' : urFormG ('{' :: (s ++ ['}'])) = some ([], '{' :: (s ++ ['}'])) := by
      unfold urFormG psepBy
      rw [por_eq_none_right _ _ _ (pseq2_fail1 _ _ _ _ hmorph')]
      rfl
    unfold parseFull
    rw [show (String.mk ('{' :: (s ++ ['}']))).toList = '{' :: (s ++ ['}']) from rfl,
      hform']

/-- C6 witness: the amended theorem at source `"a"` and the empty
target: `"{a>}"` parses, `"{a}"` does not. -/
theorem urProc_requires_arrow_witness :
    parseFull urFormG (String.mk ('{' :: (['a'] ++ '>' :: ([] ++ ['}'])))) =
      some [("root", [("proc", String.mk ('{' :: (['a'] ++ '>' :: ([] ++ ['}']))))])] ∧
    parseFull urFormG (String.mk ('{' :: (['a'] ++ ['}']))) = none :=
  urProc_requires_arrow ['a'] [] (by decide) (by decide)

/-- C3 witness: the offset rule at matrix index 5 with base feature
"cat". -/
theorem bindMorph_offset_rule_witness :
    bindMorph (1, []) (5, ("cat", [("X", []), ("Y", [2])])) =
      (3, [(((5 : Nat) : Int) + 2, "Y"), (((5 : Nat) : Int) + 1, "X"),
           (((5 : Nat) : Int), "cat")]) ∧
    dictFind (((5 : Nat) : Int))
      (bindMorph (1, []) (5, ("cat", [("X", []), ("Y", [2])]))).2 = some "cat" ∧
    dictFind (((5 : Nat) : Int) + 1)
      (bindMorph (1, []) (5, ("cat", [("X", []), ("Y", [2])]))).2 = some "X" ∧
    dictFind (((5 : Nat) : Int) + 2)
      (bindMorph (1, []) (5, ("cat", [("X", []), ("Y", [2])]))).2 = some "Y" :=
  bindMorph_offset_rule 5 "cat"
